import Mathlib

/-!
Formal model of the light-query engine (src/core/Query.ts, src/core/QueryCache.ts,
src/core/QueryClient.ts, src/utils/retry.ts), as a shallow embedding.

Conventions of the embedding:
* Epoch-millisecond timestamps are natural numbers passed explicitly (the source
  reads Date.now at the corresponding points).
* The JavaScript staleTime is a number that may be Infinity; it is modelled as
  Option Nat where none stands for Infinity.
* An AbortController is modelled by a generation token (a natural number drawn
  from a per-query counter); aborting a controller records its token in a list
  of aborted tokens, and a signal is aborted exactly when its token is in that
  list.
* The asynchronous fetch is split at its await point into the synchronous
  prefix fetchStart (the shouldSkipFetch check plus prepareForFetch) and the
  continuation completeFetch (handleSuccess or handleError followed by the
  cleanup in the finally block), with the outcome of the awaited operation
  passed in as an Except value.
-/

namespace LightQuery

/-- Model of the QueryStatus enum of src/types/index.ts. -/
inductive QStatus where
  | idle
  | loading
  | success
  | error
deriving DecidableEq, Repr

/-- Model of QueryState of src/types/index.ts: optional data, optional error,
a status and the updatedAt timestamp (0 meaning the entry never settled). -/
structure QState (α ε : Type) where
  data : Option α
  error : Option ε
  status : QStatus
  updatedAt : Nat
deriving DecidableEq, Repr

/-- Resolved per-query options of Query.ts (the constructor defaults applied).
staleTime is Option Nat with none standing for the JavaScript Infinity. -/
structure QOptions where
  staleTime : Option Nat
  cacheTime : Nat
  retryAttempts : Nat
  retryDelay : Nat
deriving DecidableEq, Repr

/-- Model of one Query instance of src/core/Query.ts (the copy that carries an
AbortController): its state, options, the current controller as a token,
a counter supplying fresh tokens, and the list of aborted tokens. -/
structure Query (α ε : Type) where
  state : QState α ε
  options : QOptions
  controller : Option Nat
  gen : Nat
  abortedT : List Nat
deriving DecidableEq, Repr

/-- Comparison d < staleTime where staleTime may be Infinity (none): every
finite number is below Infinity. -/
def ltInf (d : Nat) : Option Nat → Bool
  | some s => d < s
  | none => true

/-- Model of Query.shouldSkipFetch. The source guard
updatedAt !== null is identically true because updatedAt is a number field
(initialized to 0 and only ever assigned Date.now() or 0), so the freshness
test now - updatedAt < staleTime is applied unconditionally, exactly as the
source does at runtime. Truncated Nat subtraction agrees with the source for
now at or after updatedAt, which the engine maintains. -/
def shouldSkipFetch (q : Query α ε) (now : Nat) : Bool :=
  if q.state.status = QStatus.loading then true
  else if ltInf (now - q.state.updatedAt) q.options.staleTime then true
  else false

/-- Token t stands for an aborted signal exactly when it was recorded by an
abort call. -/
def tokenAborted (q : Query α ε) (t : Nat) : Bool :=
  q.abortedT.contains t

/-- Model of Query.prepareForFetch: abort any existing controller, create a
fresh controller, set status to Loading (all other state fields are kept) and
return the signal of this attempt. The notify call is reported by fetchStart. -/
def prepareForFetch (q : Query α ε) : Query α ε × Nat :=
  let ab : List Nat :=
    match q.controller with
    | some c => c :: q.abortedT
    | none => q.abortedT
  ({ state := { q.state with status := QStatus.loading },
     options := q.options,
     controller := some q.gen,
     gen := q.gen + 1,
     abortedT := ab }, q.gen)

/-- Result of the synchronous prefix of Query.fetch: the updated query, the
token of the attempt that was started (none when the call skipped), and
whether subscribers were notified during this prefix. -/
structure FetchCall (α ε : Type) where
  query : Query α ε
  started : Option Nat
  notified : Bool
deriving DecidableEq, Repr

/-- Synchronous prefix of Query.fetch: return unchanged when shouldSkipFetch
holds, otherwise run prepareForFetch (which notifies) and start the attempt. -/
def fetchStart (q : Query α ε) (now : Nat) : FetchCall α ε :=
  if shouldSkipFetch q now then ⟨q, none, false⟩
  else
    let p := prepareForFetch q
    ⟨p.1, some p.2, true⟩

/-- Continuation of Query.fetch after the awaited operation settled with res:
handleSuccess or handleError guarded by the aborted check of this attempt,
then the cleanup of the finally block. Returns the query and whether
subscribers were notified. -/
def completeFetch (q : Query α ε) (t : Nat) (res : Except ε α) (now : Nat) :
    Query α ε × Bool :=
  if tokenAborted q t then (q, false)
  else
    let st : QState α ε :=
      match res with
      | Except.ok d => ⟨some d, none, QStatus.success, now⟩
      | Except.error e => ⟨none, some e, QStatus.error, now⟩
    let q1 : Query α ε := { q with state := st }
    let q2 : Query α ε :=
      match q1.controller with
      | some _ => { q1 with controller := none }
      | none => q1
    (q2, true)

/-- Model of Query.cancel: abort the current controller, when present, and
drop it. The state is untouched. -/
def cancelQuery (q : Query α ε) : Query α ε :=
  match q.controller with
  | some c => { q with controller := none, abortedT := c :: q.abortedT }
  | none => q

/-- Number of operation invocations represented by the started field of one
fetch call. -/
def countStarted (o : Option Nat) : Nat :=
  if o.isSome then 1 else 0

/-- Total operation invocations of two fetch calls made in immediate
synchronous succession. -/
def fetchInvocations2 (q : Query α ε) (n1 n2 : Nat) : Nat :=
  countStarted (fetchStart q n1).started +
    countStarted (fetchStart (fetchStart q n1).query n2).started

/-- Folding a list of fetch calls over a query, counting the operation
invocations they start. Completions are irrelevant here because a wedged
query never starts an attempt. -/
def fetchSeq (q : Query α ε) : List Nat → Query α ε × Nat
  | [] => (q, 0)
  | n :: ns =>
    let r := fetchStart q n
    let rest := fetchSeq r.query ns
    (rest.1, countStarted r.started + rest.2)

/-- Result of the per-entry body of QueryClient.invalidateQueries: the query
after the cycle and whether the underlying operation was invoked. -/
structure InvalidateOut (α ε : Type) where
  query : Query α ε
  invoked : Bool
deriving DecidableEq, Repr

/-- Per-entry body of QueryClient.invalidateQueries for one matched entry:
force updatedAt to 0, save the original staleTime, zero staleTime, run the
fetch cycle (whose awaited operation settles with res at time nowDone), and in
the finally handler restore the original staleTime and force-notify. -/
def invalidateEntry (q : Query α ε) (now nowDone : Nat) (res : Except ε α) :
    InvalidateOut α ε :=
  let q0 : Query α ε := { q with state := { q.state with updatedAt := 0 } }
  let orig := q0.options.staleTime
  let q1 : Query α ε := { q0 with options := { q0.options with staleTime := some 0 } }
  let r := fetchStart q1 now
  let q2 : Query α ε :=
    match r.started with
    | none => r.query
    | some t => (completeFetch r.query t res nowDone).1
  ⟨{ q2 with options := { q2.options with staleTime := orig } }, r.started.isSome⟩

/-- Fresh Query as built by the Query constructor: Idle state, updatedAt 0,
no controller. -/
def freshQuery (opts : QOptions) : Query α ε :=
  ⟨⟨none, none, QStatus.idle, 0⟩, opts, none, 0, []⟩

/-!
Model of src/utils/retry.ts. The attempts are indexed from 0; the outcome of
the i-th invocation of the operation is given by a function into Except. The
trace records the result, the number of invocations, and the list of waits
performed between consecutive attempts (each entry being the delay in ms).
The result type wraps the error in Option because the source throws the
never-assigned lastError (undefined) when retries is 0.
-/

/-- Trace of one run of the retry loop. -/
structure RetryOut (α ε : Type) where
  result : Except (Option ε) α
  calls : Nat
  waits : List Nat
deriving Repr

/-- Body of the retry loop of src/utils/retry.ts from attempt index i with the
last observed error so far: try the attempt when i < attempts, return its
value on success; on failure record the error, wait delay when another attempt
remains (i < attempts - 1), and continue; when the loop is exhausted, throw
the last observed error. -/
def retryGo (f : Nat → Except ε α) (delay attempts : Nat) (i : Nat)
    (last : Option ε) : RetryOut α ε :=
  if i < attempts then
    match f i with
    | Except.ok v => ⟨Except.ok v, 1, []⟩
    | Except.error e =>
      let rest := retryGo f delay attempts (i + 1) (some e)
      ⟨rest.result, rest.calls + 1,
        (if i < attempts - 1 then [delay] else []) ++ rest.waits⟩
  else ⟨Except.error last, 0, []⟩
termination_by attempts - i

/-- Model of the exported retry function: run the loop from attempt 0 with no
error observed yet. -/
def retryRun (f : Nat → Except ε α) (attempts delay : Nat) : RetryOut α ε :=
  retryGo f delay attempts 0 none

/-!
Model of the cache registry with its two timer populations
(src/core/QueryCache.ts together with Query.unsubscribe of src/core/Query.ts).
entries maps serialized keys to entry identities; cleanupTimers holds the keys
with a pending registry-owned cleanup (scheduleCleanup); queryTimers holds the
pending query-owned eviction timers created by Query.unsubscribe, as pairs of
the entry identity and its key. Maps are embedded as association lists with
map semantics (at most the first binding of a key is observable).
-/

/-- Lookup in an association list embedding of a Map. -/
def lookupA (l : List (String × Nat)) (k : String) : Option Nat :=
  l.lookup k

/-- Map.set embedding: bind k to v, dropping any previous binding of k. -/
def insertA (l : List (String × Nat)) (k : String) (v : Nat) :
    List (String × Nat) :=
  (k, v) :: l.filter (fun p => p.1 != k)

/-- Map.delete embedding: drop the binding of k. -/
def removeA (l : List (String × Nat)) (k : String) : List (String × Nat) :=
  l.filter (fun p => p.1 != k)

/-- World of the cache registry and the pending timers. -/
structure CacheWorld where
  entries : List (String × Nat)
  cleanupTimers : List String
  queryTimers : List (Nat × String)
deriving DecidableEq, Repr

/-- Model of QueryCache.set: clear any pending registry-owned cleanup timer
for the key, then store the entry. Query-owned timers are untouched (the
source has no access to them here). -/
def cacheSet (w : CacheWorld) (k : String) (eid : Nat) : CacheWorld :=
  { entries := insertA w.entries k eid,
    cleanupTimers := w.cleanupTimers.filter (fun s => s != k),
    queryTimers := w.queryTimers }

/-- Model of QueryCache.remove: drop the entry and any pending registry-owned
cleanup timer for the key. -/
def cacheRemove (w : CacheWorld) (k : String) : CacheWorld :=
  { entries := removeA w.entries k,
    cleanupTimers := w.cleanupTimers.filter (fun s => s != k),
    queryTimers := w.queryTimers }

/-- Model of QueryCache.clear: remove all entries and cancel all pending
registry-owned cleanup timers. Query-owned timers keep running (the source
iterates only its cleanupTimers map). -/
def cacheClear (w : CacheWorld) : CacheWorld :=
  { entries := [], cleanupTimers := [], queryTimers := w.queryTimers }

/-- Model of QueryCache.scheduleCleanup: replace any pending registry-owned
cleanup timer for the key by a fresh one. -/
def scheduleCleanup (w : CacheWorld) (k : String) : CacheWorld :=
  { w with cleanupTimers := k :: w.cleanupTimers.filter (fun s => s != k) }

/-- Model of Query.unsubscribe at the moment the subscriber set becomes empty:
schedule the query-owned eviction timer whose callback removes this key from
the registry after cacheTime. -/
def unsubscribeEmpty (w : CacheWorld) (eid : Nat) (k : String) : CacheWorld :=
  { w with queryTimers := (eid, k) :: w.queryTimers }

/-- Firing of a pending query-owned eviction timer: the timer is consumed and
its callback runs cache.remove on the captured key. -/
def fireQueryTimer (w : CacheWorld) (eid : Nat) (k : String) : CacheWorld :=
  cacheRemove { w with queryTimers := w.queryTimers.erase (eid, k) } k

/-!
Model of QueryClient.setQueryData over a world of query entries keyed by
serialized key. The duck-typed data-vs-updater branch (data instanceof
Function) is embedded as a tagged argument.
-/

/-- Argument of setQueryData: a plain value or an updater of the previous
data. -/
inductive SetArg (α : Type) where
  | value (v : α)
  | updater (f : Option α → α)

/-- Map.set embedding for the world of query entries. -/
def mapSet (w : List (String × Query α ε)) (k : String) (q : Query α ε) :
    List (String × Query α ε) :=
  (k, q) :: w.filter (fun p => p.1 != k)

/-- Entry that setQueryData operates on: the cached query for the key when
present, else the fresh query it creates (with the idle placeholder state). -/
def baseEntry (w : List (String × Query α ε)) (k : String)
    (defaults : QOptions) : Query α ε :=
  match w.lookup k with
  | some q => q
  | none => freshQuery defaults

/-- New value computed by setQueryData: the given value, or the updater
applied to the previous data of the entry it operates on. -/
def computedData (w : List (String × Query α ε)) (k : String) (arg : SetArg α)
    (defaults : QOptions) : α :=
  match arg with
  | SetArg.value v => v
  | SetArg.updater f => f (baseEntry (ε := ε) w k defaults).state.data

/-- Direct state write performed by setQueryData on one entry: data set to the
new value, status Success, updatedAt now; the error field of the replaced
state object is absent. -/
def writeData (q : Query α ε) (d : α) (now : Nat) : Query α ε :=
  { q with state := ⟨some d, none, QStatus.success, now⟩ }

/-- Result of setQueryData: the new world, whether the underlying fetch
operation was invoked, and the key whose subscribers were force-notified. -/
structure SetQDResult (α ε : Type) where
  world : List (String × Query α ε)
  opInvoked : Bool
  notifiedKey : Option String

/-- Model of QueryClient.setQueryData: look up or create the entry for the
key, compute the new value, write the Success state directly (never calling
the fetch path), store the entry and force-notify it. -/
def setQueryData (w : List (String × Query α ε)) (k : String) (arg : SetArg α)
    (now : Nat) (defaults : QOptions) : SetQDResult α ε :=
  ⟨mapSet w k
      (writeData (baseEntry w k defaults) (computedData w k arg defaults) now),
    false, some k⟩

/-!
Model of key matching (QueryClient.matchKey and QueryClient.deepEqual of
src/core/QueryClient.ts). JSON values are modelled by the Json inductive;
numbers appearing in key segments are modelled by integers. The outcome of
JSON.parse on the stored serialized key is passed in as an Option Json, none
standing for a parse failure (which the source catches, returning false).
-/

/-- JSON value model for key segments. -/
inductive Json where
  | jnull
  | jbool (b : Bool)
  | jnum (n : Int)
  | jstr (s : String)
  | jarr (xs : List Json)
  | jobj (fs : List (String × Json))

/-- Property lookup on a JSON object (b[key] in the source). JavaScript
objects have unique keys, so the first binding is the binding. -/
def lookupJ (fs : List (String × Json)) (k : String) : Option Json :=
  match fs with
  | [] => none
  | (k1, v) :: rest => if k1 = k then some v else lookupJ rest k

/-- Index denoted by a string property name on a JavaScript array of length n:
the index i < n whose canonical decimal form is the string, if any. -/
def strIdx (k : String) (n : Nat) : Option Nat :=
  (List.range n).find? (fun i => toString i == k)

/-- Property access b[k] in the source, for the values the object branch of
deepEqual can reach: field lookup on an object; on an array, the length
property or an element under its canonical index string; undefined (none)
otherwise. -/
def jget (b : Json) (k : String) : Option Json :=
  match b with
  | Json.jobj fs => lookupJ fs k
  | Json.jarr bs =>
      if k == "length" then some (Json.jnum bs.length)
      else
        match strIdx k bs.length with
        | some i => bs.get? i
        | none => none
  | _ => none

mutual

/-- Model of QueryClient.deepEqual. Scalars compare by value (the === fast
path plus the typeof guard); two arrays compare by length and element-wise;
every other pairing of non-null object-typed values falls through to the
Object.keys comparison, in which an array contributes its index keys — the
source therefore can equate an array with a plain object. Remaining mixed
pairings fail the typeof guard. -/
def deepEqual : Json → Json → Bool
  | Json.jnull, Json.jnull => true
  | Json.jbool a, Json.jbool b => a == b
  | Json.jnum a, Json.jnum b => a == b
  | Json.jstr a, Json.jstr b => a == b
  | Json.jarr as, Json.jarr bs =>
      (as.length == bs.length) && deepEqualList as bs
  | Json.jarr as, Json.jobj bs =>
      (as.length == bs.length) && deepEqualIdx 0 as (Json.jobj bs)
  | Json.jobj as, Json.jarr bs =>
      (as.length == bs.length) && deepEqualFields as (Json.jarr bs)
  | Json.jobj as, Json.jobj bs =>
      (as.length == bs.length) && deepEqualFields as (Json.jobj bs)
  | _, _ => false

/-- Element-wise comparison of two arrays of equal length (the every call of
the array branch). -/
def deepEqualList : List Json → List Json → Bool
  | [], [] => true
  | a :: as, b :: bs => deepEqual a b && deepEqualList as bs
  | _, _ => false

/-- Object.keys traversal where the left side is an object: every key of the
left side is accessed on the right value and compared recursively. -/
def deepEqualFields : List (String × Json) → Json → Bool
  | [], _ => true
  | (k, v) :: rest, b =>
      (match jget b k with
       | some bv => deepEqual v bv
       | none => false) && deepEqualFields rest b

/-- Object.keys traversal where the left side is an array: its keys are the
index strings 0, 1, ..., accessed on the right value. -/
def deepEqualIdx : Nat → List Json → Json → Bool
  | _, [], _ => true
  | i, a :: as, b =>
      (match jget b (toString i) with
       | some bv => deepEqual a bv
       | none => false) && deepEqualIdx (i + 1) as b

end

/-- Partial key supplied to matchKey (the QueryKey type of the source): a
plain string or a sequence of JSON segments. -/
inductive KeyPart where
  | str (s : String)
  | seq (ps : List Json)

/-- Model of QueryClient.matchKey. The parse outcome of the stored serialized
key is given as Option Json; a parse failure (none) is caught and yields
false. A string partial requires the parsed key to be exactly that string; a
sequence partial requires the parsed key to be an array at least as long with
each partial segment deep-equal to the corresponding stored segment; every
other combination is false. -/
def matchKey (parsed : Option Json) (kp : KeyPart) : Bool :=
  match parsed with
  | none => false
  | some key =>
    match kp with
    | KeyPart.str s =>
      match key with
      | Json.jstr t => t == s
      | _ => false
    | KeyPart.seq ps =>
      match key with
      | Json.jarr ks =>
          decide (ps.length ≤ ks.length) &&
            (ks.zip ps).all (fun pr => deepEqual pr.1 pr.2)
      | _ => false

/-!
State-shape invariant of QueryState and the step relation enumerating the
engine operations that write entry state.
-/

/-- Shape invariant of a query state: data is set only in Success (or kept
while Loading), and error is set only in Error (or kept while Loading). -/
def StateInv (s : QState α ε) : Prop :=
  (s.data.isSome = true → s.status = QStatus.success ∨ s.status = QStatus.loading) ∧
    (s.error.isSome = true → s.status = QStatus.error ∨ s.status = QStatus.loading)

/-- Engine operations that can rewrite the state of one entry: the
synchronous prefix of fetch, a fetch completion, cancel, the per-entry
invalidation cycle, and the direct write of setQueryData. -/
inductive EngineStep : Query α ε → Query α ε → Prop where
  | fetchOp (q : Query α ε) (now : Nat) :
      EngineStep q (fetchStart q now).query
  | completeOp (q : Query α ε) (t : Nat) (res : Except ε α) (now : Nat) :
      EngineStep q (completeFetch q t res now).1
  | cancelOp (q : Query α ε) :
      EngineStep q (cancelQuery q)
  | invalidateOp (q : Query α ε) (now nowDone : Nat) (res : Except ε α) :
      EngineStep q (invalidateEntry q now nowDone res).query
  | setDataOp (q : Query α ε) (d : α) (now : Nat) :
      EngineStep q (writeData q d now)

/-! Helper lemmas about the fetch state machine. -/

theorem prepareForFetch_status (q : Query α ε) :
    (prepareForFetch q).1.state.status = QStatus.loading := rfl

theorem fetchStart_of_loading (q : Query α ε) (now : Nat)
    (h : q.state.status = QStatus.loading) :
    fetchStart q now = ⟨q, none, false⟩ := by
  simp [fetchStart, shouldSkipFetch, h]

theorem countStarted_le_one (o : Option Nat) : countStarted o ≤ 1 := by
  cases o <;> simp [countStarted]

theorem fetchSeq_of_loading (q : Query α ε) (ts : List Nat)
    (h : q.state.status = QStatus.loading) :
    fetchSeq q ts = (q, 0) := by
  induction ts with
  | nil => rfl
  | cons n ns ih =>
    simp [fetchSeq, fetchStart_of_loading q n h, countStarted, ih]

theorem completeFetch_abortedT (q : Query α ε) (t : Nat) (res : Except ε α)
    (now : Nat) : (completeFetch q t res now).1.abortedT = q.abortedT := by
  unfold completeFetch
  split
  · rfl
  · cases res <;> rename_i st <;> simp <;> split <;> rfl

theorem completeFetch_of_aborted (q : Query α ε) (t : Nat) (res : Except ε α)
    (now : Nat) (h : tokenAborted q t = true) :
    completeFetch q t res now = (q, false) := by
  simp [completeFetch, h]

theorem fetchStart_query_of_started (q : Query α ε) (now : Nat)
    (h : (fetchStart q now).started.isSome = true) :
    (fetchStart q now).query = (prepareForFetch q).1 := by
  by_cases hs : shouldSkipFetch q now = true
  · simp [fetchStart, hs] at h
  · simp [fetchStart, hs]

/-! Claim theorems. -/

/-- Concrete never-settled entry with an infinite staleTime, as produced for
a first fetchQuery with staleTime Infinity. -/
def qC1 : Query Nat Nat :=
  ⟨⟨none, none, QStatus.idle, 0⟩, ⟨none, 300000, 0, 1000⟩, none, 0, []⟩

/-- Claim C1: evaluation of the code at the failing input. The claim states
that the freshness short-circuit applies only to settled entries (updatedAt
greater than 0), so the first fetch on a never-settled entry must invoke the
operation for every staleTime including Infinity. The source guard compares
updatedAt to null instead of 0, and updatedAt is a number field that is never
null, so a never-settled entry (updatedAt 0, status Idle) with staleTime
Infinity already satisfies now - 0 < Infinity: its first fetch is skipped,
the operation is not invoked and the entry stays Idle. -/
theorem claim1_first_fetch_skipped_under_infinite_staleTime :
    qC1.state.updatedAt = 0 ∧ qC1.state.status = QStatus.idle ∧
      qC1.options.staleTime = none ∧
      shouldSkipFetch qC1 1700000000000 = true ∧
      fetchStart qC1 1700000000000 = ⟨qC1, none, false⟩ := by
  refine ⟨rfl, rfl, rfl, ?_, ?_⟩ <;> rfl

/-- Claim C2: a fetch on an entry whose status is Loading returns at once
with the entry unchanged, no attempt started (so the operation is not
invoked) and no notification; consequently two fetch calls in immediate
synchronous succession start at most one operation invocation. -/
theorem claim2_loading_dedup (q : Query α ε) (n1 n2 : Nat) :
    (q.state.status = QStatus.loading → fetchStart q n1 = ⟨q, none, false⟩) ∧
      fetchInvocations2 q n1 n2 ≤ 1 := by
  constructor
  · intro h
    exact fetchStart_of_loading q n1 h
  · unfold fetchInvocations2
    by_cases hs : shouldSkipFetch q n1 = true
    · simp only [fetchStart, hs, if_true]
      simpa [countStarted] using countStarted_le_one (fetchStart q n2).started
    · have hq : fetchStart q n1 =
          ⟨(prepareForFetch q).1, some (prepareForFetch q).2, true⟩ := by
        simp [fetchStart, hs]
      rw [hq]
      have h2 : fetchStart (prepareForFetch q).1 n2 =
          ⟨(prepareForFetch q).1, none, false⟩ :=
        fetchStart_of_loading _ n2 (prepareForFetch_status q)
      simp [h2, countStarted]

/-- Concrete Loading entry used to witness the Loading branch of C2. -/
def qLoadW : Query Nat Nat :=
  ⟨⟨none, none, QStatus.loading, 0⟩, ⟨some 0, 1000, 0, 0⟩, some 0, 1, []⟩

/-- Witness for C2 at a concrete Loading entry. -/
theorem claim2_witness :
    fetchStart qLoadW 5 = ⟨qLoadW, none, false⟩ ∧
      fetchInvocations2 qLoadW 5 6 ≤ 1 :=
  ⟨(claim2_loading_dedup qLoadW 5 6).1 rfl, (claim2_loading_dedup qLoadW 5 6).2⟩

/-- Claim C4: a completion whose signal was aborted (by cancel or by a
superseding fetch) changes nothing and notifies nobody; a fetch that starts
aborts the signal of the previous in-flight attempt; cancel aborts the
current signal; and composing these, the late completion of a superseded
attempt leaves the state produced by the completion of the superseding
attempt untouched. -/
theorem claim4_aborted_completion_discarded (q : Query α ε) :
    (∀ t res now, tokenAborted q t = true →
        completeFetch q t res now = (q, false)) ∧
      (∀ now c, q.controller = some c →
          (fetchStart q now).started.isSome = true →
          tokenAborted (fetchStart q now).query c = true) ∧
      (∀ c, q.controller = some c →
          tokenAborted (cancelQuery q) c = true) ∧
      (∀ now c t2 res2 now2 res3 now3,
          q.controller = some c →
          (fetchStart q now).started.isSome = true →
          completeFetch
              (completeFetch (fetchStart q now).query t2 res2 now2).1
              c res3 now3 =
            ((completeFetch (fetchStart q now).query t2 res2 now2).1, false)) := by
  have hsup : ∀ now c, q.controller = some c →
      (fetchStart q now).started.isSome = true →
      tokenAborted (fetchStart q now).query c = true := by
    intro now c hc hs
    rw [fetchStart_query_of_started q now hs]
    simp [prepareForFetch, tokenAborted, hc]
  refine ⟨?_, hsup, ?_, ?_⟩
  · intro t res now h
    exact completeFetch_of_aborted q t res now h
  · intro c hc
    simp [cancelQuery, hc, tokenAborted]
  · intro now c t2 res2 now2 res3 now3 hc hs
    apply completeFetch_of_aborted
    have hab : tokenAborted (fetchStart q now).query c = true := hsup now c hc hs
    unfold tokenAborted at hab ⊢
    rw [completeFetch_abortedT]
    exact hab

/-- Concrete Loading entry with an in-flight controller token 0, used to
witness C4 and C5. -/
def qInflW : Query Nat Nat :=
  ⟨⟨none, none, QStatus.loading, 0⟩, ⟨some 0, 1000, 0, 0⟩, some 0, 1, []⟩

/-- Witness for C4 at concrete inputs: token 5 is aborted in an entry whose
aborted list holds it, a started fetch aborts the previous token, cancel
aborts the current token, and the composed late completion is discarded. -/
theorem claim4_witness :
    completeFetch (⟨⟨none, none, QStatus.idle, 0⟩, ⟨some 0, 1000, 0, 0⟩,
        some 1, 2, [5]⟩ : Query Nat Nat) 5 (Except.ok 3) 7 =
      ((⟨⟨none, none, QStatus.idle, 0⟩, ⟨some 0, 1000, 0, 0⟩,
        some 1, 2, [5]⟩ : Query Nat Nat), false) ∧
      tokenAborted (cancelQuery qInflW) 0 = true := by
  refine ⟨?_, ?_⟩
  · exact (claim4_aborted_completion_discarded _).1 5 (Except.ok 3) 7 rfl
  · exact (claim4_aborted_completion_discarded qInflW).2.2.1 0 rfl

/-- Claim C5: cancelling an in-flight fetch leaves the state untouched, marks
the attempt token aborted so the arriving completion resets nothing, and from
then on the entry is stuck: its status stays Loading and any sequence of
subsequent fetch calls starts zero operation invocations. -/
theorem claim5_cancel_wedges_loading (q : Query α ε) (c : Nat)
    (res : Except ε α) (now : Nat)
    (hl : q.state.status = QStatus.loading) (hc : q.controller = some c) :
    (cancelQuery q).state = q.state ∧
      completeFetch (cancelQuery q) c res now = (cancelQuery q, false) ∧
      (∀ ts : List Nat,
        fetchSeq (completeFetch (cancelQuery q) c res now).1 ts =
          ((completeFetch (cancelQuery q) c res now).1, 0)) := by
  have hst : (cancelQuery q).state = q.state := by
    simp [cancelQuery, hc]
  have hab : tokenAborted (cancelQuery q) c = true := by
    simp [cancelQuery, hc, tokenAborted]
  have hdisc : completeFetch (cancelQuery q) c res now = (cancelQuery q, false) :=
    completeFetch_of_aborted _ c res now hab
  refine ⟨hst, hdisc, ?_⟩
  intro ts
  rw [hdisc]
  exact fetchSeq_of_loading _ ts (by rw [hst, hl])

/-- Witness for C5 at the concrete in-flight entry: the discarded completion
leaves it unchanged and two subsequent fetch calls start nothing. -/
theorem claim5_witness :
    (cancelQuery qInflW).state = qInflW.state ∧
      completeFetch (cancelQuery qInflW) 0 (Except.ok 9) 50 =
        (cancelQuery qInflW, false) ∧
      fetchSeq (completeFetch (cancelQuery qInflW) 0 (Except.ok 9) 50).1 [60, 70] =
        ((completeFetch (cancelQuery qInflW) 0 (Except.ok 9) 50).1, 0) := by
  have h := claim5_cancel_wedges_loading qInflW 0 (Except.ok 9) 50 rfl rfl
  exact ⟨h.1, h.2.1, h.2.2 [60, 70]⟩

/-- Concrete matching entry that is currently Loading when invalidateQueries
runs over it. -/
def qC3 : Query Nat Nat :=
  ⟨⟨none, none, QStatus.loading, 0⟩, ⟨some 0, 300000, 0, 1000⟩, some 0, 1, []⟩

/-- Counterexample to claim C3 as stated: on a matching entry whose current
status is Loading, the per-entry invalidation cycle performs zero operation
invocations — the forced fetch hits the Loading dedup check — contradicting
that invalidateQueries causes at least one invocation regardless of the
current state of the entry. -/
theorem claim3_counterexample :
    qC3.state.status = QStatus.loading ∧
      (invalidateEntry qC3 5 10 (Except.ok 1)).invoked = false := ⟨rfl, rfl⟩

/-- Claim C3 amended: for every matching entry that is not currently Loading,
the invalidation cycle invokes the underlying operation at least once,
regardless of the configured staleTime and of the settled or never-settled
state; and for every matching entry, whatever the state and however the
triggered refetch settles, the original staleTime is restored afterwards. -/
theorem claim3_amended_invalidate (q : Query α ε) (now nowDone : Nat)
    (res : Except ε α) :
    (q.state.status ≠ QStatus.loading →
        (invalidateEntry q now nowDone res).invoked = true) ∧
      (invalidateEntry q now nowDone res).query.options.staleTime =
        q.options.staleTime := by
  constructor
  · intro h
    have hskip : shouldSkipFetch
        ({ q with
            state := { q.state with updatedAt := 0 },
            options := { q.options with staleTime := some 0 } } : Query α ε)
          now = false := by
      simp [shouldSkipFetch, ltInf, h]
    simp [invalidateEntry, fetchStart, hskip]
  · rfl

/-- Witness for the amended C3 at a concrete never-settled Idle entry with an
infinite staleTime, whose forced refetch fails: the operation is invoked and
the infinite staleTime is restored. -/
theorem claim3_amended_witness :
    (invalidateEntry qC1 5 10 (Except.error 42)).invoked = true ∧
      (invalidateEntry qC1 5 10 (Except.error 42)).query.options.staleTime =
        qC1.options.staleTime := by
  have h := claim3_amended_invalidate qC1 5 10 (Except.error 42)
  exact ⟨h.1 (by decide), h.2⟩

/-! Unfolding equations and induction lemmas for the retry loop. -/

theorem retryGo_stop (f : Nat → Except ε α) (d att i : Nat) (last : Option ε)
    (h : ¬ i < att) : retryGo f d att i last = ⟨Except.error last, 0, []⟩ := by
  unfold retryGo
  simp [h]

theorem retryGo_ok (f : Nat → Except ε α) (d att i : Nat) (last : Option ε)
    (v : α) (h : i < att) (hf : f i = Except.ok v) :
    retryGo f d att i last = ⟨Except.ok v, 1, []⟩ := by
  unfold retryGo
  simp [h, hf]

theorem retryGo_err (f : Nat → Except ε α) (d att i : Nat) (last : Option ε)
    (e : ε) (h : i < att) (hf : f i = Except.error e) :
    retryGo f d att i last =
      ⟨(retryGo f d att (i + 1) (some e)).result,
        (retryGo f d att (i + 1) (some e)).calls + 1,
        (if i < att - 1 then [d] else []) ++
          (retryGo f d att (i + 1) (some e)).waits⟩ := by
  conv_lhs => rw [retryGo]
  simp [h, hf]

theorem retryGo_allFail (f : Nat → Except ε α) (d att : Nat) (e : Nat → ε) :
    ∀ (n i : Nat) (last : Option ε), att - i ≤ n → i < att →
      (∀ j, i ≤ j → j < att → f j = Except.error (e j)) →
      retryGo f d att i last =
        ⟨Except.error (some (e (att - 1))), att - i,
          List.replicate (att - 1 - i) d⟩ := by
  intro n
  induction n with
  | zero => intro i last hn hi _; omega
  | succ n ih =>
    intro i last hn hi hf
    have hfi : f i = Except.error (e i) := hf i le_rfl hi
    rw [retryGo_err f d att i last (e i) hi hfi]
    by_cases h2 : i + 1 < att
    · rw [ih (i + 1) (some (e i)) (by omega) h2
        (fun j hj1 hj2 => hf j (by omega) hj2)]
      have hw : i < att - 1 := by omega
      simp only [RetryOut.mk.injEq, hw, if_true]
      refine ⟨by trivial, by omega, ?_⟩
      have hc : att - 1 - i = (att - 1 - (i + 1)) + 1 := by omega
      rw [hc, List.replicate_succ]
      rfl
    · rw [retryGo_stop f d att (i + 1) (some (e i)) (by omega)]
      have h1 : att - 1 = i := by omega
      have hw : ¬ i < att - 1 := by omega
      simp only [RetryOut.mk.injEq, hw, if_false, h1]
      refine ⟨by trivial, by omega, ?_⟩
      have hc : att - 1 - i = 0 := by omega
      simp [hc]

theorem retryGo_firstOk (f : Nat → Except ε α) (d att : Nat) (v : α) :
    ∀ (n i : Nat) (last : Option ε) (j : Nat), att - i ≤ n → i ≤ j → j < att →
      (∀ m, i ≤ m → m < j → ∃ em, f m = Except.error em) →
      f j = Except.ok v →
      retryGo f d att i last =
        ⟨Except.ok v, j + 1 - i, List.replicate (j - i) d⟩ := by
  intro n
  induction n with
  | zero => intro i last j hn hij hj _ _; omega
  | succ n ih =>
    intro i last j hn hij hj hfail hok
    by_cases hieq : i = j
    · subst hieq
      rw [retryGo_ok f d att i last v (by omega) hok]
      simp only [RetryOut.mk.injEq]
      refine ⟨by trivial, by omega, ?_⟩
      have hc : i - i = 0 := by omega
      simp [hc]
    · obtain ⟨ei, hei⟩ := hfail i le_rfl (by omega)
      rw [retryGo_err f d att i last ei (by omega) hei]
      rw [ih (i + 1) (some ei) j (by omega) (by omega) hj
        (fun m hm1 hm2 => hfail m (by omega) hm2) hok]
      have hw : i < att - 1 := by omega
      simp only [RetryOut.mk.injEq, hw, if_true]
      refine ⟨by trivial, by omega, ?_⟩
      have hc : j - i = (j - (i + 1)) + 1 := by omega
      rw [hc, List.replicate_succ]
      rfl

/-- Claim C6: with attempts n greater than 0 and delay d, an always-failing
operation is invoked exactly n times, a delay is waited after every failed
attempt except the last (n - 1 waits of d), and the run fails with the error
of the last attempt; an operation first succeeding on attempt index j (so on
its invocation j + 1, with j + 1 at most n) is invoked exactly j + 1 times
with j waits and the run returns its value; and a fetch completion carrying a
retry failure on a non-aborted signal stores exactly that error with status
Error. -/
theorem claim6_retry_contract (f : Nat → Except ε α) (n d : Nat) :
    (∀ e : Nat → ε, 0 < n → (∀ i, i < n → f i = Except.error (e i)) →
        retryRun f n d =
          ⟨Except.error (some (e (n - 1))), n, List.replicate (n - 1) d⟩) ∧
      (∀ v j, j < n → (∀ m, m < j → ∃ em, f m = Except.error em) →
          f j = Except.ok v →
          retryRun f n d = ⟨Except.ok v, j + 1, List.replicate j d⟩) ∧
      (∀ (q : Query α ε) (t now : Nat) (eLast : ε),
          tokenAborted q t = false →
          (completeFetch q t (Except.error eLast) now).1.state =
            ⟨none, some eLast, QStatus.error, now⟩) := by
  refine ⟨?_, ?_, ?_⟩
  · intro e hn hf
    have h := retryGo_allFail f d n e n 0 none (by omega) hn
      (fun j _ hj => hf j hj)
    simpa [retryRun] using h
  · intro v j hj hfail hok
    have h := retryGo_firstOk f d n v n 0 none j (by omega) (by omega) hj
      (fun m _ hm => hfail m hm) hok
    simpa [retryRun] using h
  · intro q t now eLast hab
    simp [completeFetch, hab]
    split <;> rfl

/-- Witness for C6: a twice-failing operation with 2 attempts yields the last
error after 2 invocations and one wait; an operation failing once then
succeeding, under 3 attempts, returns the value after 2 invocations and one
wait; and a non-aborted completion of a retry failure stores that error. -/
theorem claim6_witness :
    retryRun (fun i => (Except.error (i + 1) : Except Nat Nat)) 2 100 =
        ⟨Except.error (some 2), 2, List.replicate 1 100⟩ ∧
      retryRun (fun i => if i < 1 then (Except.error 7 : Except Nat Nat)
          else Except.ok 5) 3 50 =
        ⟨Except.ok 5, 2, List.replicate 1 50⟩ ∧
      (completeFetch qC3 3 (Except.error 9) 77).1.state =
        ⟨none, some 9, QStatus.error, 77⟩ := by
  refine ⟨?_, ?_, ?_⟩
  · have h := (claim6_retry_contract
        (fun i => (Except.error (i + 1) : Except Nat Nat)) 2 100).1
      (fun i => i + 1) (by decide) (fun i _ => rfl)
    simpa using h
  · have h := (claim6_retry_contract
        (fun i => if i < 1 then (Except.error 7 : Except Nat Nat)
          else Except.ok 5) 3 50).2.1
      5 1 (by decide) (fun m hm => ⟨7, by simp [hm]⟩) rfl
    simpa using h
  · exact (claim6_retry_contract (fun i => (Except.error 0 : Except Nat Nat))
      1 1).2.2 qC3 3 77 9 rfl

/-! Lemmas about the cache registry world. -/

theorem contains_filter_ne_self (l : List String) (k : String) :
    (l.filter (fun s => s != k)).contains k = false := by
  induction l with
  | nil => rfl
  | cons a as ih =>
    by_cases h : a = k
    · simp [List.filter, h, ih]
    · simp only [List.filter]
      have hne : (a != k) = true := by simp [h]
      rw [hne]
      simp only [List.contains_cons, ih]
      simp [h, Ne.symm h]

/-- Registry world before the C7 counterexample trace: one entry (identity 1)
cached under the key todos, no pending timers. -/
def wC7 : CacheWorld := ⟨[("todos", 1)], [], []⟩

/-- World after the last subscriber of entry 1 left: its query-owned eviction
timer is pending. -/
def wC7a : CacheWorld := unsubscribeEmpty wC7 1 "todos"

/-- World after a full cache clear, with entry 1 gone but its query-owned
timer still pending, a fresh entry (identity 2) stored under the same key
through set, and then the pending timer fires. -/
def wC7b : CacheWorld := cacheSet (cacheClear wC7a) "todos" 2

/-- Counterexample to claim C7 as stated: the key todos has a pending
eviction scheduled by unsubscribe of entry 1; the key is freshly set (with
entry 2) before that eviction fires; the set does not cancel the pending
query-owned eviction, and when it fires, its cache.remove callback removes
the freshly reinserted entry from the registry. -/
theorem claim7_counterexample :
    (1, "todos") ∈ wC7a.queryTimers ∧
      lookupA wC7b.entries "todos" = some 2 ∧
      (1, "todos") ∈ wC7b.queryTimers ∧
      lookupA (fireQueryTimer wC7b 1 "todos").entries "todos" = none := by
  refine ⟨?_, ?_, ?_, ?_⟩ <;> decide

/-- Claim C7 amended: a fresh set of a key cancels the pending registry-owned
cleanup timers for that key (the ones created by scheduleCleanup) and stores
the entry; it does not cancel a pending query-owned eviction timer created by
unsubscribe, which keeps running and can still remove the freshly reinserted
key when it fires. -/
theorem claim7_amended_set_cancels_registry_cleanup (w : CacheWorld)
    (k : String) (eid : Nat) :
    (cacheSet w k eid).cleanupTimers.contains k = false ∧
      lookupA (cacheSet w k eid).entries k = some eid ∧
      (cacheSet w k eid).queryTimers = w.queryTimers := by
  refine ⟨contains_filter_ne_self w.cleanupTimers k, ?_, rfl⟩
  simp [cacheSet, insertA, lookupA, List.lookup]

/-! Lemmas about the query entry world used by setQueryData. -/

theorem lookup_filter_ne (w : List (String × Query α ε)) (k k2 : String)
    (h : k2 ≠ k) :
    (w.filter (fun p => p.1 != k)).lookup k2 = w.lookup k2 := by
  induction w with
  | nil => rfl
  | cons p ps ih =>
    obtain ⟨k1, v1⟩ := p
    by_cases h1 : k1 = k
    · subst h1
      simp only [List.filter, bne_self_eq_false]
      rw [ih]
      have hb : (k2 == k1) = false := by simp [h]
      simp [List.lookup, hb]
    · simp only [List.filter]
      have hb : (k1 != k) = true := by simp [h1]
      rw [hb]
      by_cases h2 : k2 = k1
      · subst h2
        simp [List.lookup]
      · simp only [List.lookup]
        have hb2 : (k2 == k1) = false := by simp [h2]
        rw [hb2, ih]

theorem mapSet_lookup_self (w : List (String × Query α ε)) (k : String)
    (q : Query α ε) : (mapSet w k q).lookup k = some q := by
  simp [mapSet, List.lookup]

theorem mapSet_lookup_ne (w : List (String × Query α ε)) (k k2 : String)
    (q : Query α ε) (h : k2 ≠ k) :
    (mapSet w k q).lookup k2 = w.lookup k2 := by
  simp only [mapSet, List.lookup]
  have hb : (k2 == k) = false := by simp [h]
  rw [hb]
  exact lookup_filter_ne w k k2 h

/-- Claim C8: setQueryData never invokes the underlying fetch operation,
force-notifies exactly the given key, binds that key (creating the entry if
absent) to the entry whose state is the given value — or the updater applied
to the previous data — with status Success and updatedAt now, and leaves
every other key of the world untouched. -/
theorem claim8_setQueryData (w : List (String × Query α ε)) (k : String)
    (arg : SetArg α) (now : Nat) (defaults : QOptions) :
    (setQueryData w k arg now defaults).opInvoked = false ∧
      (setQueryData w k arg now defaults).notifiedKey = some k ∧
      (setQueryData w k arg now defaults).world.lookup k =
        some (writeData (baseEntry w k defaults)
          (computedData w k arg defaults) now) ∧
      (writeData (baseEntry w k defaults)
          (computedData w k arg defaults) now).state =
        ⟨some (computedData w k arg defaults), none, QStatus.success, now⟩ ∧
      (∀ k2, k2 ≠ k →
        (setQueryData w k arg now defaults).world.lookup k2 = w.lookup k2) :=
  ⟨rfl, rfl, mapSet_lookup_self w k _, rfl,
    fun k2 h => mapSet_lookup_ne w k k2 _ h⟩

/-- Default options used in concrete worlds. -/
def optW : QOptions := ⟨some 0, 300000, 0, 1000⟩

/-- Witness for C8 on the empty world: setting the key a to the value 5
creates the entry with a Success state and does not bind the key b. -/
theorem claim8_witness :
    (setQueryData ([] : List (String × Query Nat Nat)) "a" (SetArg.value 5)
        3 optW).opInvoked = false ∧
      (setQueryData ([] : List (String × Query Nat Nat)) "a" (SetArg.value 5)
          3 optW).world.lookup "a" =
        some (writeData (baseEntry ([] : List (String × Query Nat Nat)) "a" optW)
          (computedData ([] : List (String × Query Nat Nat)) "a"
            (SetArg.value 5) optW) 3) ∧
      (setQueryData ([] : List (String × Query Nat Nat)) "a" (SetArg.value 5)
          3 optW).world.lookup "b" = List.lookup "b" [] := by
  have h := claim8_setQueryData ([] : List (String × Query Nat Nat)) "a"
    (SetArg.value 5) 3 optW
  exact ⟨h.1, h.2.2.1, h.2.2.2.2 "b" (by decide)⟩

/-! Characterization lemmas for deepEqual and matchKey. -/

theorem zip_all_deepEqual (ps : List Json) : ∀ ks : List Json,
    ps.length ≤ ks.length →
    (((ks.zip ps).all fun pr => deepEqual pr.1 pr.2) = true ↔
      ∀ i, i < ps.length →
        deepEqual (ks.getD i Json.jnull) (ps.getD i Json.jnull) = true) := by
  induction ps with
  | nil => intro ks _; simp
  | cons p ps ih =>
    intro ks hlen
    cases ks with
    | nil => simp at hlen
    | cons a as =>
      simp only [List.zip_cons_cons, List.all_cons, Bool.and_eq_true]
      rw [ih as (by simpa using hlen)]
      constructor
      · rintro ⟨h0, hrest⟩ i hi
        cases i with
        | zero => simpa using h0
        | succ n => simpa using hrest n (by simpa using hi)
      · intro h
        refine ⟨by simpa using h 0 (by simp), fun i hi => ?_⟩
        simpa using h (i + 1) (by simpa using hi)

theorem deepEqualList_iff (as : List Json) : ∀ bs : List Json,
    deepEqualList as bs = true ↔
      (as.length = bs.length ∧ ∀ i, i < as.length →
        deepEqual (as.getD i Json.jnull) (bs.getD i Json.jnull) = true) := by
  induction as with
  | nil =>
    intro bs
    cases bs <;> simp [deepEqualList]
  | cons a as ih =>
    intro bs
    cases bs with
    | nil => simp [deepEqualList]
    | cons b bs =>
      simp only [deepEqualList, Bool.and_eq_true, List.length_cons]
      rw [ih bs]
      constructor
      · rintro ⟨h0, hlen, hrest⟩
        refine ⟨by omega, fun i hi => ?_⟩
        cases i with
        | zero => simpa using h0
        | succ n => simpa using hrest n (by omega)
      · rintro ⟨hlen, h⟩
        exact ⟨by simpa using h 0 (by omega), by omega,
          fun i hi => by simpa using h (i + 1) (by omega)⟩

theorem deepEqualFields_iff (b : Json) (as : List (String × Json)) :
    deepEqualFields as b = true ↔
      ∀ p, p ∈ as → ∃ bv, jget b p.1 = some bv ∧ deepEqual p.2 bv = true := by
  induction as with
  | nil => simp [deepEqualFields]
  | cons p ps ih =>
    obtain ⟨k, v⟩ := p
    simp only [deepEqualFields, Bool.and_eq_true]
    rw [ih]
    constructor
    · rintro ⟨h1, h2⟩ q hq
      rcases List.mem_cons.1 hq with hq | hq
      · subst hq
        cases hjget : jget b k with
        | none => rw [hjget] at h1; exact absurd h1 (by simp)
        | some bv =>
          rw [hjget] at h1
          exact ⟨bv, rfl, h1⟩
      · exact h2 q hq
    · intro h
      obtain ⟨bv, hbv, hde⟩ := h (k, v) (List.mem_cons_self _ _)
      refine ⟨?_, fun q hq => h q (List.mem_cons_of_mem _ hq)⟩
      rw [hbv]
      exact hde

/-- Claim C9: key matching. A stored key whose serialization fails to parse
matches nothing (and matchKey is total, so no error escapes); a string
partial matches exactly when the stored key parses to that very string; a
sequence partial matches exactly when the stored key parses to an array at
least as long whose leading segments are deep-equal to the partial segments,
the segments beyond the partial being unconstrained; deep equality compares
arrays of equal length element-wise and objects of equal key count by
looking up every key of the left object on the right with recursively equal
values; and the partial [todos] matches the stored key [todos, page 1] but
not [posts]. -/
theorem claim9_key_matching :
    (∀ kp, matchKey none kp = false) ∧
      (∀ (j : Json) (s : String),
        matchKey (some j) (KeyPart.str s) = true ↔ j = Json.jstr s) ∧
      (∀ (j : Json) (ps : List Json),
        matchKey (some j) (KeyPart.seq ps) = true ↔
          ∃ ks, j = Json.jarr ks ∧ ps.length ≤ ks.length ∧
            ∀ i, i < ps.length →
              deepEqual (ks.getD i Json.jnull) (ps.getD i Json.jnull) = true) ∧
      (∀ as bs : List Json,
        deepEqual (Json.jarr as) (Json.jarr bs) = true ↔
          as.length = bs.length ∧ ∀ i, i < as.length →
            deepEqual (as.getD i Json.jnull) (bs.getD i Json.jnull) = true) ∧
      (∀ as bs : List (String × Json),
        deepEqual (Json.jobj as) (Json.jobj bs) = true ↔
          as.length = bs.length ∧ ∀ p, p ∈ as → ∃ bv,
            lookupJ bs p.1 = some bv ∧ deepEqual p.2 bv = true) ∧
      matchKey (some (Json.jarr [Json.jstr "todos",
          Json.jobj [("page", Json.jnum 1)]]))
        (KeyPart.seq [Json.jstr "todos"]) = true ∧
      matchKey (some (Json.jarr [Json.jstr "posts"]))
        (KeyPart.seq [Json.jstr "todos"]) = false := by
  refine ⟨fun kp => rfl, ?_, ?_, ?_, ?_, ?_, ?_⟩
  · intro j s
    cases j <;> simp [matchKey]
  · intro j ps
    cases j with
    | jarr ks =>
      simp only [matchKey, Bool.and_eq_true, decide_eq_true_eq]
      constructor
      · rintro ⟨hlen, hall⟩
        exact ⟨ks, rfl, hlen, (zip_all_deepEqual ps ks hlen).1 hall⟩
      · rintro ⟨ks2, heq, hlen, h⟩
        injection heq with h2
        subst h2
        exact ⟨hlen, (zip_all_deepEqual ps ks hlen).2 h⟩
    | jnull => simp [matchKey]
    | jbool b => simp [matchKey]
    | jnum n => simp [matchKey]
    | jstr s => simp [matchKey]
    | jobj fs => simp [matchKey]
  · intro as bs
    rw [show deepEqual (Json.jarr as) (Json.jarr bs) =
        ((as.length == bs.length) && deepEqualList as bs) from by
      simp [deepEqual]]
    simp only [Bool.and_eq_true, beq_iff_eq]
    rw [deepEqualList_iff as bs]
    constructor
    · rintro ⟨h1, _, h3⟩
      exact ⟨h1, h3⟩
    · rintro ⟨h1, h2⟩
      exact ⟨h1, h1, h2⟩
  · intro as bs
    rw [show deepEqual (Json.jobj as) (Json.jobj bs) =
        ((as.length == bs.length) && deepEqualFields as (Json.jobj bs)) from by
      simp [deepEqual]]
    simp only [Bool.and_eq_true, beq_iff_eq]
    rw [deepEqualFields_iff (Json.jobj bs) as]
    simp [jget]
  · simp [matchKey, deepEqual, deepEqualList, deepEqualFields, deepEqualIdx]
  · simp [matchKey, deepEqual, deepEqualList, deepEqualFields, deepEqualIdx]

/-- Witness for C9 at concrete inputs: a parse failure matches nothing, the
string iff applied at the exact string, and the sequence iff applied at the
scenario key. -/
theorem claim9_witness :
    matchKey none (KeyPart.str "todos") = false ∧
      matchKey (some (Json.jstr "todos")) (KeyPart.str "todos") = true ∧
      matchKey (some (Json.jarr [Json.jstr "todos"]))
        (KeyPart.seq [Json.jstr "todos"]) = true := by
  refine ⟨claim9_key_matching.1 (KeyPart.str "todos"),
    (claim9_key_matching.2.1 (Json.jstr "todos") "todos").2 rfl,
    (claim9_key_matching.2.2.1 (Json.jarr [Json.jstr "todos"])
        [Json.jstr "todos"]).2
      ⟨[Json.jstr "todos"], rfl, by simp, ?_⟩⟩
  intro i hi
  have hz : i = 0 := by simpa using hi
  subst hz
  simp [deepEqual]

/-! Preservation lemmas for the state-shape invariant. -/

theorem inv_fetchStart (q : Query α ε) (now : Nat) (h : StateInv q.state) :
    StateInv (fetchStart q now).query.state := by
  by_cases hs : shouldSkipFetch q now = true
  · rw [show (fetchStart q now).query = q from by simp [fetchStart, hs]]
    exact h
  · rw [show (fetchStart q now).query = (prepareForFetch q).1 from by
      simp [fetchStart, hs]]
    exact ⟨fun _ => Or.inr rfl, fun _ => Or.inr rfl⟩

theorem inv_complete (q : Query α ε) (t : Nat) (res : Except ε α) (now : Nat)
    (h : StateInv q.state) : StateInv (completeFetch q t res now).1.state := by
  by_cases hab : tokenAborted q t = true
  · rw [completeFetch_of_aborted q t res now hab]
    exact h
  · cases res with
    | ok d =>
      cases hc : q.controller <;> simp [completeFetch, hab, hc] <;>
        exact ⟨fun _ => Or.inl rfl, fun hx => by simp at hx⟩
    | error e =>
      cases hc : q.controller <;> simp [completeFetch, hab, hc] <;>
        exact ⟨fun hx => by simp at hx, fun _ => Or.inl rfl⟩

theorem cancelQuery_state (q : Query α ε) : (cancelQuery q).state = q.state := by
  unfold cancelQuery
  split <;> rfl

theorem inv_cancel (q : Query α ε) (h : StateInv q.state) :
    StateInv (cancelQuery q).state := by
  rw [cancelQuery_state]
  exact h

theorem inv_writeData (q : Query α ε) (d : α) (now : Nat) :
    StateInv (writeData q d now).state :=
  ⟨fun _ => Or.inl rfl, fun hx => by simp [writeData] at hx⟩

theorem inv_after_optional_complete (r : FetchCall α ε) (res : Except ε α)
    (nowDone : Nat) (h : StateInv r.query.state) :
    StateInv (match r.started with
      | none => r.query
      | some t => (completeFetch r.query t res nowDone).1).state := by
  cases r.started with
  | none => exact h
  | some t => exact inv_complete r.query t res nowDone h

theorem inv_invalidate (q : Query α ε) (now nowDone : Nat) (res : Except ε α)
    (h : StateInv q.state) :
    StateInv (invalidateEntry q now nowDone res).query.state :=
  inv_after_optional_complete
    (fetchStart ({ q with
      state := { q.state with updatedAt := 0 },
      options := { q.options with staleTime := some 0 } } : Query α ε) now)
    res nowDone (inv_fetchStart _ now h)

/-- Claim C10: the state-shape invariant — data set only under Success and
error set only under Error, except that a transition into Loading keeps the
fields of the prior terminal state — is preserved by every engine operation
that writes entry state: the fetch prefix (entering Loading), fetch
completion, cancel, the invalidation cycle, and the direct write of
setQueryData. -/
theorem claim10_state_shape_invariant (q q2 : Query α ε)
    (hInv : StateInv q.state) (hStep : EngineStep q q2) : StateInv q2.state := by
  cases hStep with
  | fetchOp now => exact inv_fetchStart q now hInv
  | completeOp t res now => exact inv_complete q t res now hInv
  | cancelOp => exact inv_cancel q hInv
  | invalidateOp now nowDone res => exact inv_invalidate q now nowDone res hInv
  | setDataOp d now => exact inv_writeData q d now

/-- Witness for C10: the invariant holds after cancelling a concrete Loading
entry that satisfies it. -/
theorem claim10_witness : StateInv (cancelQuery qInflW).state := by
  apply claim10_state_shape_invariant qInflW (cancelQuery qInflW) ?_
    (EngineStep.cancelOp qInflW)
  constructor
  · intro hx
    simp [qInflW] at hx
  · intro hx
    simp [qInflW] at hx

end LightQuery
